import Mathlib

/-!
Shallow embedding of the `Image` component of `src/src/index.tsx`
(a react-native-web style image primitive) together with the parts of
`src/types` it consumes.  JavaScript numbers are modelled as rationals,
strings as Lean strings, and thrown exceptions as `Except` errors.
External collaborators (the asset registry `getAssetByID` and the
`ImageLoader`) are modelled as explicit parameters, matching the
interface the component code uses.
-/

namespace ReactEmage

/-- jsAbs models JavaScript `Math.abs` on (non-NaN) numbers. -/
def jsAbs (q : ℚ) : ℚ := if q < 0 then -q else q

/-- LoadState models the four string constants `IDLE`, `LOADING`,
`LOADED`, `ERRORED` used as the component load state. -/
inductive LoadState where
  | idle
  | loading
  | loaded
  | errored
deriving DecidableEq, Repr

/-- SourceObject models the descriptor shape of the `Source` union from
`src/types` (`uri` required, `width`/`height` optional; the request
fields `body`/`cache`/`headers`/`method`/`scale` play no role in the
code under study and are omitted). -/
structure SourceObject where
  uri : String
  width : Option ℚ := none
  height : Option ℚ := none
deriving DecidableEq, Repr

/-- AssetManifest models the record returned by the external
`getAssetByID` registry: server location, base name, file type, the
list of available scales and the intrinsic dimensions. -/
structure AssetManifest where
  httpServerLocation : String
  name : String
  type : String
  scales : List ℚ
  height : ℚ
  width : ℚ
deriving DecidableEq, Repr

/-- Source models the `Source` union of `src/types`:
`number | string | SourceObject | Array<SourceObject>`. -/
inductive Source where
  | handle (id : ℕ)
  | uriString (s : String)
  | descriptor (d : SourceObject)
  | sourceList (ds : List SourceObject)
deriving DecidableEq, Repr

/-- JsOpt models an optional JavaScript prop slot, distinguishing the
absent value `undefined` from the explicit value `null` (the code
compares `defaultSource === null` with strict equality, so the two
behave differently). -/
inductive JsOpt (α : Type) where
  | undef
  | null
  | val (a : α)
deriving DecidableEq, Repr

/-- JsError models a thrown JavaScript exception: a generic `Error`
(with its message) or a `TypeError` raised by the runtime. -/
inductive JsError where
  | jsError (msg : String)
  | jsTypeError (msg : String)
deriving DecidableEq, Repr

deriving instance DecidableEq for Except

/-- Registry models the external `getAssetByID` collaborator:
`(handle: number) -> AssetManifest | null`. -/
def Registry : Type := ℕ → Option AssetManifest

/- Percent encoding: a faithful model of the JavaScript builtin
`encodeURIComponent`, which leaves the unreserved characters
`A-Z a-z 0-9 - _ . ! ~ * ' ( )` intact and replaces every other
character by the uppercase-hex percent encoding of its UTF-8 bytes. -/

/-- isUnreservedUriChar recognises the characters `encodeURIComponent`
leaves unescaped (letters, digits, and `- _ . ! ~ * ( )` plus the
apostrophe, here given by code point). -/
def isUnreservedUriChar (c : Char) : Bool :=
  let n := c.toNat
  (65 ≤ n && n ≤ 90) || (97 ≤ n && n ≤ 122) || (48 ≤ n && n ≤ 57) ||
  n == 45 || n == 95 || n == 46 || n == 33 || n == 126 || n == 42 ||
  n == 39 || n == 40 || n == 41

/-- natToHexDigitChar turns a value below 16 into its uppercase hex
digit character. -/
def natToHexDigitChar (n : ℕ) : Char :=
  if n < 10 then Char.ofNat (48 + n) else Char.ofNat (55 + n)

/-- utf8EncodeChar gives the UTF-8 byte sequence of a unicode scalar
value, as natural numbers. -/
def utf8EncodeChar (c : Char) : List ℕ :=
  let v := c.toNat
  if v < 128 then [v]
  else if v < 2048 then [192 + v / 64, 128 + v % 64]
  else if v < 65536 then [224 + v / 4096, 128 + (v / 64) % 64, 128 + v % 64]
  else [240 + v / 262144, 128 + (v / 4096) % 64, 128 + (v / 64) % 64, 128 + v % 64]

/-- percentEncodeByte renders one byte as a percent escape `%XY` with
uppercase hex digits. -/
def percentEncodeByte (b : ℕ) : List Char :=
  ['%', natToHexDigitChar (b / 16), natToHexDigitChar (b % 16)]

/-- encodeChar is the per-character step of `encodeURIComponent`. -/
def encodeChar (c : Char) : List Char :=
  if isUnreservedUriChar c then [c]
  else (utf8EncodeChar c).flatMap percentEncodeByte

/-- encodeURIComponent models the JavaScript builtin of the same name
(on strings without lone surrogates, which Lean strings cannot
represent anyway). -/
def encodeURIComponent (s : String) : String :=
  ⟨s.data.flatMap encodeChar⟩

/-- isJsLineTerminator recognises the four ECMAScript line terminator
code points, which the regular-expression atom `.` does not match:
U+000A, U+000D, U+2028, U+2029. -/
def isJsLineTerminator (c : Char) : Bool :=
  c.toNat == 10 || c.toNat == 13 || c.toNat == 8232 || c.toNat == 8233

/-- matchHead checks that the second list starts with the first and
returns the remainder after that head, mirroring the anchored literal
part of a regular expression match. -/
def matchHead : List Char → List Char → Option (List Char)
  | [], rest => some rest
  | _ :: _, [] => none
  | p :: ps, c :: cs => if c = p then matchHead ps cs else none

/-- svgHead is the literal first capture group of the source pattern
`svgDataUriPattern = /^(data:image\/svg\+xml;utf8,)(.*)/`. -/
def svgHead : String := "data:image/svg+xml;utf8,"

/-- svgMatchPayload models `uri.match(svgDataUriPattern)`: if the URI
starts with `svgHead` it yields the second capture group, namely the
characters following the head up to (excluding) the first ECMAScript
line terminator, since the atom `.` does not cross line terminators;
otherwise the match fails. -/
def svgMatchPayload (uri : String) : Option String :=
  (matchHead svgHead.data uri.data).map
    (fun rest => ⟨rest.takeWhile (fun c => !isJsLineTerminator c)⟩)

/-- svgEncodeIfMatch models the tail of `resolveAssetUri`: when the
SVG data-URI pattern matches, return the first capture group verbatim
followed by the percent-encoded second group, else return the URI
unchanged. -/
def svgEncodeIfMatch (uri : String) : String :=
  match svgMatchPayload uri with
  | some payload => svgHead ++ encodeURIComponent payload
  | none => uri

/-- assetNotFoundMessage is the message of the `Error` thrown by
`resolveAssetUri` when the registry has no asset for the handle. -/
def assetNotFoundMessage (id : ℕ) : String :=
  "Image: asset with ID \"" ++ toString id ++
    "\" could not be found. Please check the image source or packager."

/-- jsReduceClosest models
`scales.reduce((prev, curr) => Math.abs(curr - preferredScale) < Math.abs(prev - preferredScale) ? curr : prev)`:
`reduce` without an initial value starts from the first element (and
throws on an empty array, hence the `Option`). -/
def jsReduceClosest (preferred : ℚ) : List ℚ → Option ℚ
  | [] => none
  | s :: rest =>
      some (rest.foldl
        (fun prev curr =>
          if jsAbs (curr - preferred) < jsAbs (prev - preferred) then curr else prev)
        s)

/-- ratToJsString models the interpolation of a scale number into the
template string `@${scale}x`; it agrees with JavaScript number
printing on the integral scales exercised here. -/
def ratToJsString (q : ℚ) : String := toString q

/-- scaleSuffixOf models `scale !== 1 ? `@${scale}x` : ''` where
`scale` is `undefined` when the manifest has an empty scale list
(`let [scale] = asset.scales`). -/
def scaleSuffixOf : Option ℚ → String
  | some q => if q = 1 then "" else "@" ++ ratToJsString q ++ "x"
  | none => "@undefinedx"

/-- selectedScale models the scale-selection block of
`resolveAssetUri`: take the first scale by destructuring, and when the
manifest lists more than one scale replace it with the `reduce` result
closest to the preferred scale. -/
def selectedScale (preferred : ℚ) (scales : List ℚ) : Option ℚ :=
  if 1 < scales.length then jsReduceClosest preferred scales
  else scales.head?

/-- preferredScaleOf models `window.devicePixelRatio || 1` (a falsy
device pixel ratio, modelled as 0, falls back to 1). -/
def preferredScaleOf (devicePixelRatio : ℚ) : ℚ :=
  if devicePixelRatio = 0 then 1 else devicePixelRatio

/-- resolveAssetUri is the shallow embedding of the source function of
the same name; `getAsset` is the external registry and
`devicePixelRatio` the ambient `window.devicePixelRatio`.  A `none`
source models both `undefined` and `null` (neither is a string, a
number, an array, nor truthy).  An empty descriptor array reaches
`source[0].uri` with `source[0]` undefined, which throws a
`TypeError`. -/
def resolveAssetUri (getAsset : Registry) (devicePixelRatio : ℚ) :
    Option Source → Except JsError (Option String)
  | none => .ok none
  | some (.uriString s) => .ok (finishUri (some s))
  | some (.handle id) =>
      match getAsset id with
      | none => .error (.jsError (assetNotFoundMessage id))
      | some asset =>
          let preferred := preferredScaleOf devicePixelRatio
          let scale := selectedScale preferred asset.scales
          let uri := asset.httpServerLocation ++ "/" ++ asset.name ++
            scaleSuffixOf scale ++ "." ++ asset.type
          .ok (finishUri (some uri))
  | some (.sourceList []) =>
      .error (.jsTypeError "Cannot read properties of undefined (reading uri)")
  | some (.sourceList (d :: _)) => .ok (finishUri (some d.uri))
  | some (.descriptor d) => .ok (finishUri (some d.uri))
where
  /-- finishUri models the final `if (uri) { ... }` block: a truthy
  (non-empty) URI is passed through the SVG percent-encoding step. -/
  finishUri : Option String → Option String
  | none => none
  | some u => some (if u = "" then u else svgEncodeIfMatch u)

/-- resolveAssetDimensions is the shallow embedding of the source
function of the same name: a numeric handle destructures the manifest
returned by the registry (throwing a `TypeError` when that manifest is
`null`), a non-null non-array object passes its `width`/`height`
through, and every other shape returns `undefined`. -/
def resolveAssetDimensions (getAsset : Registry) :
    Option Source → Except JsError (Option (Option ℚ × Option ℚ))
  | some (.handle id) =>
      match getAsset id with
      | none => .error (.jsTypeError "Cannot destructure property height of null")
      | some asset => .ok (some (some asset.height, some asset.width))
  | some (.descriptor d) => .ok (some (d.height, d.width))
  | _ => .ok none

/-- shouldDisplaySource is the shallow embedding of
`state === LOADED || (state === LOADING && defaultSource === null)`
(note the strict comparison with `null`). -/
def shouldDisplaySource (state : LoadState) (defaultSource : JsOpt Source) : Bool :=
  decide (state = .loaded) || (decide (state = .loading) && decide (defaultSource = .null))

/-- ResizeMode models the `ResizeMode` union of `src/types`. -/
inductive ResizeMode where
  | center
  | contain
  | cover
  | none
  | repeat
  | stretch
deriving DecidableEq, Repr

/-- NaturalSize models the `naturalHeight`/`naturalWidth` fields read
from the hidden `img` element behind `hiddenImageRef`. -/
structure NaturalSize where
  naturalHeight : ℚ
  naturalWidth : ℚ
deriving DecidableEq, Repr

/-- LayoutBox models the `layout` state `{ height, width }` measured
from the root node. -/
structure LayoutBox where
  height : ℚ
  width : ℚ
deriving DecidableEq, Repr

/-- getBackgroundSize is the shallow embedding of the component helper
of the same name: for `center`/`repeat` modes with a mounted hidden
image whose natural dimensions and whose measured layout are all
truthy (non-zero), it returns the string
`` `${ceil(sf*naturalWidth)}px ${ceil(sf*naturalHeight)}px` `` with
`sf = min(1, width/naturalWidth, height/naturalHeight)`; in every
other case it returns `undefined`. -/
def getBackgroundSize (hiddenImage : Option NaturalSize) (resizeMode : ResizeMode)
    (layout : LayoutBox) : Option String :=
  match hiddenImage with
  | .none => none
  | .some img =>
      if resizeMode = .center ∨ resizeMode = .repeat then
        if img.naturalHeight ≠ 0 ∧ img.naturalWidth ≠ 0 ∧
            layout.height ≠ 0 ∧ layout.width ≠ 0 then
          let scaleFactor :=
            min 1 (min (layout.width / img.naturalWidth) (layout.height / img.naturalHeight))
          let x : ℤ := ⌈scaleFactor * img.naturalWidth⌉
          let y : ℤ := ⌈scaleFactor * img.naturalHeight⌉
          some (toString x ++ "px " ++ toString y ++ "px")
        else none
      else none

/- Model of the load effect (lines 302-342 of `src/src/index.tsx`) and
of the mount-time state initializer (lines 226-235).  The `ImageLoader`
collaborator is modelled through the observable calls the component
makes to it (`load`/`abort`); request handles are modelled as the
naturals 0, 1, 2, ... allocated in order by successive `load` calls. -/

/-- LoaderCall is one observable call the component makes to the
external `ImageLoader`. -/
inductive LoaderCall where
  | load (uri : String) (handle : ℕ)
  | abort (handle : ℕ)
deriving DecidableEq, Repr

/-- CallbackEvent is one invocation of a caller-supplied notification
prop. -/
inductive CallbackEvent where
  | onLoadStart
  | onLoad
  | onError (msg : String)
  | onLoadEnd
deriving DecidableEq, Repr

/-- CompState is the per-instance mutable state the load effect
touches: the load state, the current `requestRef.current` (`none`
models `null`), and the next fresh handle the loader would hand out. -/
structure CompState where
  state : LoadState
  req : Option ℕ
  nextHandle : ℕ
deriving DecidableEq, Repr

/-- abortPendingRequest models the inner helper of the load effect: if
`requestRef.current !== null`, call `ImageLoader.abort` on it and clear
the ref. -/
def abortPendingRequest (s : CompState) : CompState × List LoaderCall :=
  match s.req with
  | some h => ({ s with req := none }, [.abort h])
  | none => (s, [])

/-- initialLoadState models the `useState` initializer: resolve the
URI; when it is non-null and `ImageLoader.has(uri)` reports it cached,
start in `LOADED`, otherwise in `IDLE`.  `cached` is the external
`ImageLoader.has`. -/
def initialLoadState (cached : String → Bool) (uri : Option String) : LoadState :=
  match uri with
  | some u => if cached u then .loaded else .idle
  | none => .idle

/-- loadEffect models one run of the image-loading `useEffect` body for
a given resolved URI: abort any pending request, and when the URI is
not null transition to `LOADING`, fire `onLoadStart` when that prop is
provided, and issue `ImageLoader.load`, storing the returned handle.
It returns the new state together with the emitted callback events and
loader calls, in order. -/
def loadEffect (hasOnLoadStart : Bool) (s : CompState) (uri : Option String) :
    CompState × List CallbackEvent × List LoaderCall :=
  let sa := abortPendingRequest s
  match uri with
  | some u =>
      ({ sa.1 with state := .loading, req := some sa.1.nextHandle,
                   nextHandle := sa.1.nextHandle + 1 },
       (if hasOnLoadStart then [.onLoadStart] else []),
       sa.2 ++ [.load u sa.1.nextHandle])
  | none => (sa.1, [], sa.2)

/-- successCallback models the `load` callback passed to
`ImageLoader.load`: set `LOADED`, fire `onLoad` when provided, then
fire `onLoadEnd` when provided. -/
def successCallback (hasOnLoad hasOnLoadEnd : Bool) (s : CompState) :
    CompState × List CallbackEvent :=
  ({ s with state := .loaded },
   (if hasOnLoad then [.onLoad] else []) ++ (if hasOnLoadEnd then [.onLoadEnd] else []))

/-- loadErrorMessage is the synthesized diagnostic string of the error
callback. -/
def loadErrorMessage (uri : String) : String :=
  "Failed to load resource " ++ uri ++ " (404)"

/-- errorCallback models the `error` callback passed to
`ImageLoader.load`: set `ERRORED`, fire `onError` (when provided) with
the synthesized message naming the URI, then fire `onLoadEnd` when
provided; `onLoad` is never fired. -/
def errorCallback (hasOnError hasOnLoadEnd : Bool) (uri : String) (s : CompState) :
    CompState × List CallbackEvent :=
  ({ s with state := .errored },
   (if hasOnError then [.onError (loadErrorMessage uri)] else []) ++
     (if hasOnLoadEnd then [.onLoadEnd] else []))

/-- MountResult packages what happens on first mount: the state
produced by the `useState` initializer, and then the state, callback
events and loader calls of the first run of the load effect. -/
structure MountResult where
  initialState : LoadState
  stateAfterEffect : LoadState
  events : List CallbackEvent
  calls : List LoaderCall
deriving DecidableEq, Repr

/-- mountImage models mounting the component with a given resolved
URI: the `useState` initializer runs first, then the load effect runs
once with `requestRef.current === null`. -/
def mountImage (cached : String → Bool) (hasOnLoadStart : Bool)
    (uri : Option String) : MountResult :=
  let s0 : CompState := { state := initialLoadState cached uri, req := none, nextHandle := 0 }
  let r := loadEffect hasOnLoadStart s0 uri
  { initialState := s0.state, stateAfterEffect := r.1.state,
    events := r.2.1, calls := r.2.2 }

/-- runEffects folds successive runs of the load effect over a list of
resolved URIs (one entry per effect execution), concatenating the
loader calls they emit. -/
def runEffects (hasOnLoadStart : Bool) (s : CompState) :
    List (Option String) → CompState × List LoaderCall
  | [] => (s, [])
  | u :: us =>
      let r := loadEffect hasOnLoadStart s u
      let rest := runEffects hasOnLoadStart r.1 us
      (rest.1, r.2.2 ++ rest.2)

/-- lifecycleCalls is the full sequence of `ImageLoader` calls over a
component lifetime: mount and re-renders with the given resolved URIs
(each entry one effect run), then the unmount cleanup, which is
`abortPendingRequest` itself. -/
def lifecycleCalls (hasOnLoadStart : Bool) (cached : String → Bool)
    (uris : List (Option String)) : List LoaderCall :=
  let s0 : CompState :=
    { state := initialLoadState cached (uris.headD none), req := none, nextHandle := 0 }
  let r := runEffects hasOnLoadStart s0 uris
  r.2 ++ (abortPendingRequest r.1).2

/-- liveStep updates the set of live request handles by one loader
call: `load` adds a handle, `abort` removes it. -/
def liveStep (acc : List ℕ) : LoaderCall → List ℕ
  | .load _ h => acc ++ [h]
  | .abort h => acc.filter (· ≠ h)

/-- liveAfter gives the handles of requests issued and not yet aborted
after a sequence of loader calls. -/
def liveAfter (calls : List LoaderCall) : List ℕ :=
  calls.foldl liveStep []

/-- reqList views `requestRef.current` as the list of live handles it
holds (empty or a singleton). -/
def reqList (s : CompState) : List ℕ :=
  match s.req with
  | some h => [h]
  | none => []

/- Percent decoding: a model of the JavaScript builtin
`decodeURIComponent`, used to state the round-trip property of the SVG
payload encoding.  A percent escape contributes one byte; the byte
sequence is then decoded as UTF-8. -/

/-- hexDigitToNat? reads one hex digit (either case). -/
def hexDigitToNat? (c : Char) : Option ℕ :=
  let n := c.toNat
  if 48 ≤ n ∧ n ≤ 57 then some (n - 48)
  else if 65 ≤ n ∧ n ≤ 70 then some (n - 55)
  else if 97 ≤ n ∧ n ≤ 102 then some (n - 87)
  else none

/-- percentDecodeBytes turns a percent-encoded character sequence into
the byte sequence it denotes: `%XY` contributes the byte `XY`, any
other character contributes its own code point. -/
def percentDecodeBytes : List Char → Option (List ℕ)
  | [] => some []
  | c :: rest =>
      if c = '%' then
        match rest with
        | h1 :: h2 :: rest2 =>
            match hexDigitToNat? h1, hexDigitToNat? h2 with
            | some d1, some d2 => (percentDecodeBytes rest2).map ((16 * d1 + d2) :: ·)
            | _, _ => none
        | _ => none
      else (percentDecodeBytes rest).map (c.toNat :: ·)

mutual

/-- utf8DecodeBytes decodes a UTF-8 byte sequence back into
characters (failing on truncated sequences or stray bytes).  A
multi-byte sequence is consumed one continuation byte at a time by the
helpers below, which accumulate the partial scalar value in their
first argument shifted back into lead-byte form. -/
def utf8DecodeBytes : List ℕ → Option (List Char)
  | [] => some []
  | b :: rest =>
      if b < 128 then (utf8DecodeBytes rest).map (Char.ofNat b :: ·)
      else if b < 192 then none
      else if b < 224 then utf8DecodeCont2 b rest
      else if b < 240 then utf8DecodeCont3 b rest
      else if b < 248 then utf8DecodeCont4 b rest
      else none

/-- utf8DecodeCont2 consumes the final continuation byte: the decoded
scalar is `(b - 192) * 64 + (b2 - 128)`. -/
def utf8DecodeCont2 (b : ℕ) : List ℕ → Option (List Char)
  | b2 :: rest =>
      if 128 ≤ b2 ∧ b2 < 192 then
        (utf8DecodeBytes rest).map (Char.ofNat ((b - 192) * 64 + (b2 - 128)) :: ·)
      else none
  | [] => none

/-- utf8DecodeCont3 consumes the first of two remaining continuation
bytes, folding it into a lead value for `utf8DecodeCont2`. -/
def utf8DecodeCont3 (b : ℕ) : List ℕ → Option (List Char)
  | b2 :: rest =>
      if 128 ≤ b2 ∧ b2 < 192 then
        utf8DecodeCont2 ((b - 224) * 64 + (b2 - 128) + 192) rest
      else none
  | [] => none

/-- utf8DecodeCont4 consumes the first of three remaining continuation
bytes, folding it into a lead value for `utf8DecodeCont3`. -/
def utf8DecodeCont4 (b : ℕ) : List ℕ → Option (List Char)
  | b2 :: rest =>
      if 128 ≤ b2 ∧ b2 < 192 then
        utf8DecodeCont3 ((b - 240) * 64 + (b2 - 128) + 224) rest
      else none
  | [] => none

end

/-- decodeURIComponent models the JavaScript builtin of the same
name: percent-decode to bytes, then UTF-8 decode. -/
def decodeURIComponent (s : String) : Option String :=
  (percentDecodeBytes s.data).bind fun bytes =>
    (utf8DecodeBytes bytes).map fun cs => ⟨cs⟩

/- Concrete sample data used by the witness statements. -/

/-- emptyRegistry is a registry with no assets at all. -/
def emptyRegistry : Registry := fun _ => none

/-- sampleAsset is a concrete multi-scale asset manifest. -/
def sampleAsset : AssetManifest :=
  { httpServerLocation := "/assets", name := "logo", type := "png",
    scales := [1, 2, 3], height := 10, width := 20 }

/-- sampleRegistry is a registry holding `sampleAsset` at handle 1. -/
def sampleRegistry : Registry :=
  fun id => if id = 1 then some sampleAsset else none

/- Theorems. -/

/-- finishUri always applies the SVG step: the guard `if (uri)` only
skips it for the empty string, on which the SVG pattern cannot match
anyway. -/
theorem finishUri_eq_svgEncode (u : String) :
    resolveAssetUri.finishUri (some u) = some (svgEncodeIfMatch u) := by
  show some (if u = "" then u else svgEncodeIfMatch u) = some (svgEncodeIfMatch u)
  rcases eq_or_ne u "" with h | h
  · subst h
    decide
  · simp [h]

/-- C5: for every numeric handle the registry resolves to null, URI
resolution fails with the asset-not-found `Error`, whose message
identifies the handle, and no URI is produced. -/
theorem c5_unregistered_handle_fails (getAsset : Registry) (dpr : ℚ) (id : ℕ)
    (hreg : getAsset id = none) :
    resolveAssetUri getAsset dpr (some (.handle id)) =
      .error (.jsError (assetNotFoundMessage id)) ∧
    (toString id).data <:+: (assetNotFoundMessage id).data := by
  refine ⟨by simp [resolveAssetUri, hreg], ?_⟩
  refine ⟨("Image: asset with ID \"").data,
    ("\" could not be found. Please check the image source or packager.").data, ?_⟩
  simp [assetNotFoundMessage, String.data_append]

/-- Witness for C5 at handle 7 in the empty registry. -/
theorem c5_unregistered_handle_fails_witness :
    emptyRegistry 7 = none ∧
    (resolveAssetUri emptyRegistry 1 (some (.handle 7)) =
        .error (.jsError (assetNotFoundMessage 7)) ∧
      (toString 7).data <:+: (assetNotFoundMessage 7).data) :=
  ⟨rfl, c5_unregistered_handle_fails emptyRegistry 1 7 rfl⟩

/-- C9: resolving the empty descriptor array reads `source[0].uri`
with `source[0]` undefined, so it throws a `TypeError` rather than
returning null or a URI. -/
theorem c9_empty_array_throws_type_error (getAsset : Registry) (dpr : ℚ) :
    resolveAssetUri getAsset dpr (some (.sourceList [])) =
      .error (.jsTypeError "Cannot read properties of undefined (reading uri)") := rfl

/-- C10: on a handle the registry resolves to null,
`resolveAssetDimensions` throws a `TypeError` from destructuring the
null manifest while `resolveAssetUri` throws the asset-not-found
`Error` — the two entry points fail with different errors. -/
theorem c10_dimensions_und_uri_fail_differently (getAsset : Registry) (dpr : ℚ) (id : ℕ)
    (hreg : getAsset id = none) :
    resolveAssetDimensions getAsset (some (.handle id)) =
      .error (.jsTypeError "Cannot destructure property height of null") ∧
    resolveAssetUri getAsset dpr (some (.handle id)) =
      .error (.jsError (assetNotFoundMessage id)) ∧
    JsError.jsTypeError "Cannot destructure property height of null" ≠
      JsError.jsError (assetNotFoundMessage id) := by
  refine ⟨by simp [resolveAssetDimensions, hreg], by simp [resolveAssetUri, hreg], by simp⟩

/-- Witness for C10 at handle 3 in the empty registry. -/
theorem c10_dimensions_und_uri_fail_differently_witness :
    emptyRegistry 3 = none ∧
    (resolveAssetDimensions emptyRegistry (some (.handle 3)) =
        .error (.jsTypeError "Cannot destructure property height of null") ∧
      resolveAssetUri emptyRegistry 1 (some (.handle 3)) =
        .error (.jsError (assetNotFoundMessage 3)) ∧
      JsError.jsTypeError "Cannot destructure property height of null" ≠
        JsError.jsError (assetNotFoundMessage 3)) :=
  ⟨rfl, c10_dimensions_und_uri_fail_differently emptyRegistry 1 3 rfl⟩

/-- C3 counterexample: in state `LOADING` with an absent (undefined)
`defaultSource`, the strict comparison `defaultSource === null` fails,
so `shouldDisplaySource` is `false`, although the claim (which counts
an absent `defaultSource` as unconfigured) says it should be `true`. -/
theorem c3_counterexample :
    shouldDisplaySource LoadState.loading (JsOpt.undef : JsOpt Source) = false := rfl

/-- C3 (amended): `shouldDisplaySource` is true exactly when the state
is `LOADED`, or the state is `LOADING` and `defaultSource` is the
explicit value `null` (an absent `undefined` `defaultSource` does not
qualify). -/
theorem c3_should_display_source_iff (state : LoadState) (d : JsOpt Source) :
    shouldDisplaySource state d = true ↔
      (state = .loaded ∨ (state = .loading ∧ d = .null)) := by
  simp [shouldDisplaySource]

/-- C6: the loader error callback fires `onError` exactly once with
the synthesized message naming the URI, then `onLoadEnd` exactly once,
never fires `onLoad` (for any combination of provided callbacks), and
moves the state to `ERRORED`. -/
theorem c6_error_callback_events (uri : String) (s : CompState) :
    (errorCallback true true uri s).2 =
      [CallbackEvent.onError (loadErrorMessage uri), CallbackEvent.onLoadEnd] ∧
    (errorCallback true true uri s).2.count
      (CallbackEvent.onError (loadErrorMessage uri)) = 1 ∧
    (errorCallback true true uri s).2.count CallbackEvent.onLoadEnd = 1 ∧
    (∀ hE hL : Bool, (errorCallback hE hL uri s).2.count CallbackEvent.onLoad = 0) ∧
    uri.data <:+: (loadErrorMessage uri).data ∧
    (errorCallback true true uri s).1.state = LoadState.errored := by
  refine ⟨rfl, ?_, ?_, ?_, ?_, rfl⟩
  · simp [errorCallback, List.count_cons]
  · simp [errorCallback, List.count_cons]
  · intro hE hL
    cases hE <;> cases hL <;> simp [errorCallback, List.count_cons]
  · exact ⟨("Failed to load resource ").data, (" (404)").data,
      by simp [loadErrorMessage, String.data_append]⟩

/-- C2 counterexample: mounting with a URI the loader reports as
cached does start in `LOADED`, but the mount run of the load effect
still emits one load-start notification, not zero. -/
theorem c2_counterexample :
    (mountImage (fun _ => true) true (some "img.png")).initialState = LoadState.loaded ∧
    (mountImage (fun _ => true) true (some "img.png")).events.count
      CallbackEvent.onLoadStart = 1 := by
  constructor <;> rfl

/-- C2 (amended): with a cached URI the `useState` initializer yields
`LOADED` (no initial `LOADING` render) and no load-end notification is
emitted during the mount itself, but the mount run of the load effect
still transitions to `LOADING`, emits exactly one load-start
notification and issues a load for the URI. -/
theorem c2_cached_mount (cached : String → Bool) (u : String) (hc : cached u = true) :
    (mountImage cached true (some u)).initialState = LoadState.loaded ∧
    (mountImage cached true (some u)).events = [CallbackEvent.onLoadStart] ∧
    (mountImage cached true (some u)).events.count CallbackEvent.onLoadEnd = 0 ∧
    (mountImage cached true (some u)).stateAfterEffect = LoadState.loading ∧
    (mountImage cached true (some u)).calls = [LoaderCall.load u 0] := by
  refine ⟨?_, ?_, ?_, ?_, ?_⟩ <;>
    simp [mountImage, initialLoadState, loadEffect, abortPendingRequest, hc, List.count_cons]

/-- Witness for C2 (amended) at a concrete cached URI. -/
theorem c2_cached_mount_witness :
    ((fun _ => true : String → Bool) "img.png" = true) ∧
    ((mountImage (fun _ => true) true (some "img.png")).initialState = LoadState.loaded ∧
      (mountImage (fun _ => true) true (some "img.png")).events =
        [CallbackEvent.onLoadStart] ∧
      (mountImage (fun _ => true) true (some "img.png")).events.count
        CallbackEvent.onLoadEnd = 0 ∧
      (mountImage (fun _ => true) true (some "img.png")).stateAfterEffect =
        LoadState.loading ∧
      (mountImage (fun _ => true) true (some "img.png")).calls =
        [LoaderCall.load "img.png" 0]) :=
  ⟨rfl, c2_cached_mount (fun _ => true) "img.png" rfl⟩

/-- C8: for `center`/`repeat` with known non-zero natural dimensions
and layout, the background size override is
`ceil(sf * naturalWidth) x ceil(sf * naturalHeight)` with
`sf = min(1, layoutWidth/naturalWidth, layoutHeight/naturalHeight)`;
for any other mode, an unknown image, or any zero dimension there is
no override. -/
theorem c8_background_size (img : NaturalSize) (mode : ResizeMode) (layout : LayoutBox)
    (hmode : mode = .center ∨ mode = .repeat)
    (hnh : img.naturalHeight ≠ 0) (hnw : img.naturalWidth ≠ 0)
    (hlh : layout.height ≠ 0) (hlw : layout.width ≠ 0) :
    getBackgroundSize (some img) mode layout =
      some (toString (⌈min 1 (min (layout.width / img.naturalWidth)
              (layout.height / img.naturalHeight)) * img.naturalWidth⌉ : ℤ) ++ "px " ++
            toString (⌈min 1 (min (layout.width / img.naturalWidth)
              (layout.height / img.naturalHeight)) * img.naturalHeight⌉ : ℤ) ++ "px") ∧
    (∀ (img2 : NaturalSize) (mode2 : ResizeMode) (layout2 : LayoutBox),
        mode2 ≠ .center → mode2 ≠ .repeat →
        getBackgroundSize (some img2) mode2 layout2 = none) ∧
    (∀ (mode2 : ResizeMode) (layout2 : LayoutBox),
        getBackgroundSize none mode2 layout2 = none) ∧
    (∀ (img2 : NaturalSize) (mode2 : ResizeMode) (layout2 : LayoutBox),
        (img2.naturalHeight = 0 ∨ img2.naturalWidth = 0 ∨
            layout2.height = 0 ∨ layout2.width = 0) →
        getBackgroundSize (some img2) mode2 layout2 = none) := by
  refine ⟨?_, ?_, ?_, ?_⟩
  · have hcond : img.naturalHeight ≠ 0 ∧ img.naturalWidth ≠ 0 ∧
        layout.height ≠ 0 ∧ layout.width ≠ 0 := ⟨hnh, hnw, hlh, hlw⟩
    simp only [getBackgroundSize, if_pos hmode, if_pos hcond]
  · intro img2 mode2 layout2 hc hr
    simp [getBackgroundSize, hc, hr]
  · intro mode2 layout2
    rfl
  · intro img2 mode2 layout2 hz
    have hcond : ¬(img2.naturalHeight ≠ 0 ∧ img2.naturalWidth ≠ 0 ∧
        layout2.height ≠ 0 ∧ layout2.width ≠ 0) := by tauto
    simp only [getBackgroundSize, if_neg hcond]
    split <;> rfl

/-- Witness for C8: resize mode `center`, natural size 400x200,
layout 100x100 (the scale factor is 1/4). -/
theorem c8_background_size_witness :
    ((ResizeMode.center = ResizeMode.center ∨ ResizeMode.center = ResizeMode.repeat) ∧
      (⟨200, 400⟩ : NaturalSize).naturalHeight ≠ 0 ∧
      (⟨200, 400⟩ : NaturalSize).naturalWidth ≠ 0 ∧
      (⟨100, 100⟩ : LayoutBox).height ≠ 0 ∧
      (⟨100, 100⟩ : LayoutBox).width ≠ 0) ∧
    getBackgroundSize (some ⟨200, 400⟩) ResizeMode.center ⟨100, 100⟩ =
      some (toString (⌈min 1 (min ((100:ℚ) / 400) ((100:ℚ) / 200)) * 400⌉ : ℤ) ++ "px " ++
            toString (⌈min 1 (min ((100:ℚ) / 400) ((100:ℚ) / 200)) * 200⌉ : ℤ) ++ "px") :=
  ⟨⟨Or.inl rfl, by decide, by decide, by decide, by decide⟩,
    (c8_background_size ⟨200, 400⟩ ResizeMode.center ⟨100, 100⟩ (Or.inl rfl)
      (by decide) (by decide) (by decide) (by decide)).1⟩

/-- reduceClosest_mem: the stable `reduce` over the scale candidates
returns one of the candidates. -/
theorem reduceClosest_mem (d : ℚ) : ∀ (rest : List ℚ) (s : ℚ),
    rest.foldl (fun prev curr =>
      if jsAbs (curr - d) < jsAbs (prev - d) then curr else prev) s ∈ s :: rest := by
  intro rest
  induction rest with
  | nil => intro s; simp
  | cons x xs ih =>
      intro s
      simp only [List.foldl_cons]
      have h := ih (if jsAbs (x - d) < jsAbs (s - d) then x else s)
      rcases List.mem_cons.mp h with h1 | h1
      · rw [h1]
        split
        · exact List.mem_cons_of_mem _ (List.mem_cons_self _ _)
        · exact List.mem_cons_self _ _
      · exact List.mem_cons_of_mem _ (List.mem_cons_of_mem _ h1)

/-- reduceClosest_le: the stable `reduce` over the scale candidates
minimizes the distance to the preferred scale. -/
theorem reduceClosest_le (d : ℚ) : ∀ (rest : List ℚ) (s c : ℚ), c ∈ s :: rest →
    jsAbs (rest.foldl (fun prev curr =>
      if jsAbs (curr - d) < jsAbs (prev - d) then curr else prev) s - d) ≤
      jsAbs (c - d) := by
  intro rest
  induction rest with
  | nil =>
      intro s c hc
      rw [List.mem_singleton.mp hc]
      exact le_refl _
  | cons x xs ih =>
      intro s c hc
      simp only [List.foldl_cons]
      have hs2le_s : jsAbs ((if jsAbs (x - d) < jsAbs (s - d) then x else s) - d) ≤
          jsAbs (s - d) := by
        split
        · next hlt => exact le_of_lt hlt
        · exact le_refl _
      have hs2le_x : jsAbs ((if jsAbs (x - d) < jsAbs (s - d) then x else s) - d) ≤
          jsAbs (x - d) := by
        split
        · exact le_refl _
        · next hlt => exact not_lt.mp hlt
      have hhead := ih (if jsAbs (x - d) < jsAbs (s - d) then x else s)
        (if jsAbs (x - d) < jsAbs (s - d) then x else s) (List.mem_cons_self _ _)
      rcases List.mem_cons.mp hc with rfl | hc2
      · exact le_trans hhead hs2le_s
      · rcases List.mem_cons.mp hc2 with rfl | hc3
        · exact le_trans hhead hs2le_x
        · exact ih _ c (List.mem_cons_of_mem _ hc3)

/-- reduceClosest_first: among equally close candidates the stable
`reduce` keeps the first-encountered one — every candidate strictly
before the result in the list is strictly farther from the preferred
scale. -/
theorem reduceClosest_first (d : ℚ) : ∀ (rest : List ℚ) (s : ℚ),
    ∃ l₁ l₂, s :: rest = l₁ ++ (rest.foldl (fun prev curr =>
        if jsAbs (curr - d) < jsAbs (prev - d) then curr else prev) s) :: l₂ ∧
      ∀ c ∈ l₁, jsAbs (rest.foldl (fun prev curr =>
        if jsAbs (curr - d) < jsAbs (prev - d) then curr else prev) s - d) <
        jsAbs (c - d) := by
  intro rest
  induction rest with
  | nil => intro s; exact ⟨[], [], by simp, by simp⟩
  | cons x xs ih =>
      intro s
      simp only [List.foldl_cons]
      by_cases hlt : jsAbs (x - d) < jsAbs (s - d)
      · rw [if_pos hlt]
        obtain ⟨l₁, l₂, heq, hall⟩ := ih x
        have hle : jsAbs (xs.foldl (fun prev curr =>
            if jsAbs (curr - d) < jsAbs (prev - d) then curr else prev) x - d) ≤
            jsAbs (x - d) :=
          reduceClosest_le d xs x x (List.mem_cons_self _ _)
        refine ⟨s :: l₁, l₂, by rw [List.cons_append, ← heq], ?_⟩
        intro c hc
        rcases List.mem_cons.mp hc with rfl | hc2
        · exact lt_of_le_of_lt hle hlt
        · exact hall c hc2
      · rw [if_neg hlt]
        obtain ⟨l₁, l₂, heq, hall⟩ := ih s
        cases l₁ with
        | nil =>
            rw [List.nil_append, List.cons_eq_cons] at heq
            refine ⟨[], x :: xs, ?_, by simp⟩
            rw [List.nil_append, ← heq.1]
        | cons a l₁t =>
            rw [List.cons_append, List.cons_eq_cons] at heq
            have h1 : a = s := heq.1.symm
            have h2 : xs = l₁t ++ (xs.foldl (fun prev curr =>
                if jsAbs (curr - d) < jsAbs (prev - d) then curr else prev) s) :: l₂ :=
              heq.2
            have hres_lt_s : jsAbs (xs.foldl (fun prev curr =>
                if jsAbs (curr - d) < jsAbs (prev - d) then curr else prev) s - d) <
                jsAbs (s - d) := h1 ▸ hall a (List.mem_cons_self _ _)
            refine ⟨s :: x :: l₁t, l₂, ?_, ?_⟩
            · rw [List.cons_append, List.cons_append, ← h2]
            · intro c hc
              rcases List.mem_cons.mp hc with rfl | hc2
              · exact hres_lt_s
              · rcases List.mem_cons.mp hc2 with rfl | hc3
                · exact lt_of_lt_of_le hres_lt_s (not_lt.mp hlt)
                · exact hall c (List.mem_cons_of_mem _ hc3)

/-- C4: for a multi-scale manifest the selected scale is a candidate
minimizing the distance to the device pixel ratio, ties broken by
first encounter; the resolved URI appends no suffix when the selected
scale is 1 and `@{scale}x` otherwise; and for scales `[1,2,3]` with
ratio `2.4` the selection is `2`. -/
theorem c4_scale_selection (getAsset : Registry) (id : ℕ) (asset : AssetManifest)
    (dpr : ℚ) (hreg : getAsset id = some asset)
    (hlen : 1 < asset.scales.length) (hdpr : dpr ≠ 0) :
    ∃ sel : ℚ,
      selectedScale dpr asset.scales = some sel ∧
      sel ∈ asset.scales ∧
      (∀ c ∈ asset.scales, jsAbs (sel - dpr) ≤ jsAbs (c - dpr)) ∧
      (∃ l₁ l₂, asset.scales = l₁ ++ sel :: l₂ ∧
          ∀ c ∈ l₁, jsAbs (sel - dpr) < jsAbs (c - dpr)) ∧
      resolveAssetUri getAsset dpr (some (.handle id)) =
        .ok (some (svgEncodeIfMatch (asset.httpServerLocation ++ "/" ++ asset.name ++
          scaleSuffixOf (some sel) ++ "." ++ asset.type))) ∧
      (sel = 1 → scaleSuffixOf (some sel) = "") ∧
      (sel ≠ 1 → scaleSuffixOf (some sel) = "@" ++ ratToJsString sel ++ "x") ∧
      selectedScale (12/5) [1, 2, 3] = some 2 := by
  obtain ⟨s, rest, hscales⟩ : ∃ s rest, asset.scales = s :: rest := by
    cases hsc : asset.scales with
    | nil => rw [hsc] at hlen; simp at hlen
    | cons a l => exact ⟨a, l, rfl⟩
  have hsel : selectedScale dpr asset.scales =
      some (rest.foldl (fun prev curr =>
        if jsAbs (curr - dpr) < jsAbs (prev - dpr) then curr else prev) s) := by
    rw [selectedScale, if_pos hlen, hscales, jsReduceClosest]
  refine ⟨_, hsel, ?_, ?_, ?_, ?_, ?_, ?_, ?_⟩
  · rw [hscales]; exact reduceClosest_mem dpr rest s
  · rw [hscales]; exact fun c hc => reduceClosest_le dpr rest s c hc
  · rw [hscales]; exact reduceClosest_first dpr rest s
  · have hpref : preferredScaleOf dpr = dpr := by rw [preferredScaleOf, if_neg hdpr]
    show resolveAssetUri getAsset dpr (some (.handle id)) = _
    rw [resolveAssetUri]
    rw [hreg]
    simp only [hpref, hsel, finishUri_eq_svgEncode]
  · intro h1; rw [scaleSuffixOf, if_pos h1]
  · intro h1; rw [scaleSuffixOf, if_neg h1]
  · norm_num [selectedScale, jsReduceClosest, List.foldl, jsAbs]

/-- Witness for C4 at `sampleAsset` (scales `[1,2,3]`) with device
pixel ratio 2. -/
theorem c4_scale_selection_witness :
    (sampleRegistry 1 = some sampleAsset ∧ 1 < sampleAsset.scales.length ∧ (2:ℚ) ≠ 0) ∧
    (∃ sel : ℚ,
      selectedScale 2 sampleAsset.scales = some sel ∧
      sel ∈ sampleAsset.scales ∧
      (∀ c ∈ sampleAsset.scales, jsAbs (sel - 2) ≤ jsAbs (c - 2)) ∧
      (∃ l₁ l₂, sampleAsset.scales = l₁ ++ sel :: l₂ ∧
          ∀ c ∈ l₁, jsAbs (sel - 2) < jsAbs (c - 2)) ∧
      resolveAssetUri sampleRegistry 2 (some (.handle 1)) =
        .ok (some (svgEncodeIfMatch (sampleAsset.httpServerLocation ++ "/" ++
          sampleAsset.name ++ scaleSuffixOf (some sel) ++ "." ++ sampleAsset.type))) ∧
      (sel = 1 → scaleSuffixOf (some sel) = "") ∧
      (sel ≠ 1 → scaleSuffixOf (some sel) = "@" ++ ratToJsString sel ++ "x") ∧
      selectedScale (12/5) [1, 2, 3] = some 2) :=
  ⟨⟨rfl, by decide, by decide⟩,
    c4_scale_selection sampleRegistry 1 sampleAsset 2 rfl (by decide) (by decide)⟩

/-- reqList_length: `requestRef.current` holds at most one handle. -/
theorem reqList_length (s : CompState) : (reqList s).length ≤ 1 := by
  cases hreq : s.req <;> simp [reqList, hreq]

/-- effect_calls_live: folding the live-handle tracker over the calls
of one effect run moves it from the previous `requestRef` content to
the new one. -/
theorem effect_calls_live (f : Bool) (s : CompState) (u : Option String) :
    List.foldl liveStep (reqList s) (loadEffect f s u).2.2 =
      reqList (loadEffect f s u).1 := by
  cases hreq : s.req <;> cases u <;>
    simp [loadEffect, abortPendingRequest, hreq, liveStep, reqList]

/-- effect_take_live: at every point inside one effect run at most one
request is live. -/
theorem effect_take_live (f : Bool) (s : CompState) (u : Option String) (n : ℕ) :
    (List.foldl liveStep (reqList s) ((loadEffect f s u).2.2.take n)).length ≤ 1 := by
  cases hreq : s.req <;> cases u <;> rcases n with _ | _ | n <;>
    simp [loadEffect, abortPendingRequest, hreq, liveStep, reqList, List.take]

/-- cleanup_live: the unmount cleanup empties the live-request set. -/
theorem cleanup_live (s : CompState) :
    List.foldl liveStep (reqList s) (abortPendingRequest s).2 = [] := by
  cases hreq : s.req <;> simp [abortPendingRequest, hreq, reqList, liveStep]

/-- cleanup_take_live: at every point inside the cleanup at most one
request is live. -/
theorem cleanup_take_live (s : CompState) (m : ℕ) :
    (List.foldl liveStep (reqList s) ((abortPendingRequest s).2.take m)).length ≤ 1 := by
  cases hreq : s.req <;> rcases m with _ | m <;>
    simp [abortPendingRequest, hreq, reqList, liveStep, List.take]

/-- runEffects_live: over any sequence of effect runs, the live-handle
tracker follows `requestRef` and never exceeds one live request at any
intermediate point. -/
theorem runEffects_live (f : Bool) : ∀ (uris : List (Option String)) (s : CompState),
    List.foldl liveStep (reqList s) (runEffects f s uris).2 =
      reqList (runEffects f s uris).1 ∧
    ∀ n, (List.foldl liveStep (reqList s) ((runEffects f s uris).2.take n)).length ≤ 1 := by
  intro uris
  induction uris with
  | nil =>
      intro s
      refine ⟨rfl, fun n => ?_⟩
      show (List.foldl liveStep (reqList s) (List.take n [])).length ≤ 1
      rw [List.take_nil, List.foldl_nil]
      exact reqList_length s
  | cons u us ih =>
      intro s
      constructor
      · show List.foldl liveStep (reqList s)
            ((loadEffect f s u).2.2 ++ (runEffects f (loadEffect f s u).1 us).2) = _
        rw [List.foldl_append, effect_calls_live]
        exact (ih (loadEffect f s u).1).1
      · intro n
        show (List.foldl liveStep (reqList s)
            (((loadEffect f s u).2.2 ++ (runEffects f (loadEffect f s u).1 us).2).take n)).length ≤ 1
        rw [List.take_append_eq_append_take, List.foldl_append]
        rcases le_or_lt n ((loadEffect f s u).2.2.length) with hle | hlt
        · have hz : n - (loadEffect f s u).2.2.length = 0 := Nat.sub_eq_zero_of_le hle
          rw [hz, List.take_zero, List.foldl_nil]
          exact effect_take_live f s u n
        · have htake : (loadEffect f s u).2.2.take n = (loadEffect f s u).2.2 :=
            List.take_of_length_le (le_of_lt hlt)
          rw [htake, effect_calls_live]
          exact (ih (loadEffect f s u).1).2 _

/-- lifecycle_live_aux: for any starting state with no pending
request, the run-then-cleanup call sequence keeps at most one request
live at every prefix and ends with none live. -/
theorem lifecycle_live_aux (f : Bool) (uris : List (Option String)) (s0 : CompState)
    (h0 : s0.req = none) :
    (∀ n, (List.foldl liveStep []
        (((runEffects f s0 uris).2 ++
          (abortPendingRequest (runEffects f s0 uris).1).2).take n)).length ≤ 1) ∧
    List.foldl liveStep []
      ((runEffects f s0 uris).2 ++ (abortPendingRequest (runEffects f s0 uris).1).2) = [] := by
  have h0l : reqList s0 = [] := by simp [reqList, h0]
  have hrun := runEffects_live f uris s0
  rw [h0l] at hrun
  constructor
  · intro n
    rw [List.take_append_eq_append_take, List.foldl_append]
    rcases le_or_lt n ((runEffects f s0 uris).2.length) with hle | hlt
    · rw [Nat.sub_eq_zero_of_le hle, List.take_zero, List.foldl_nil]
      exact hrun.2 n
    · rw [List.take_of_length_le (le_of_lt hlt), hrun.1]
      exact cleanup_take_live _ _
  · rw [List.foldl_append, hrun.1]
    exact cleanup_live _

/-- C1: over any component lifecycle (mount, any sequence of effect
runs, unmount cleanup) at most one loader request is live at any
point, the cleanup leaves no live request, and whenever an effect run
starts with an outstanding request and a non-null URI it aborts the
old handle strictly before issuing the new load. -/
theorem c1_single_live_request (f : Bool) (cached : String → Bool)
    (uris : List (Option String)) :
    (∀ n, (liveAfter ((lifecycleCalls f cached uris).take n)).length ≤ 1) ∧
    liveAfter (lifecycleCalls f cached uris) = [] ∧
    (∀ (s : CompState) (h : ℕ) (u : String), s.req = some h →
        (loadEffect f s (some u)).2.2 =
          [LoaderCall.abort h, LoaderCall.load u s.nextHandle]) := by
  have haux := lifecycle_live_aux f uris
    { state := initialLoadState cached (uris.headD none), req := none, nextHandle := 0 } rfl
  refine ⟨fun n => haux.1 n, haux.2, ?_⟩
  intro s h u hreq
  simp [loadEffect, abortPendingRequest, hreq]

/-- Witness for C1: a lifecycle with two successive URIs, checked at
prefix length 3, and a concrete effect run that aborts handle 5 before
loading with handle 9. -/
theorem c1_single_live_request_witness :
    (liveAfter ((lifecycleCalls true (fun _ => false) [some "a", some "b"]).take 3)).length ≤ 1 ∧
    liveAfter (lifecycleCalls true (fun _ => false) [some "a", some "b"]) = [] ∧
    (({ state := LoadState.idle, req := some 5, nextHandle := 9 } : CompState).req = some 5 ∧
      (loadEffect true { state := LoadState.idle, req := some 5, nextHandle := 9 }
          (some "b")).2.2 = [LoaderCall.abort 5, LoaderCall.load "b" 9]) :=
  ⟨(c1_single_live_request true (fun _ => false) [some "a", some "b"]).1 3,
    (c1_single_live_request true (fun _ => false) [some "a", some "b"]).2.1,
    rfl,
    (c1_single_live_request true (fun _ => false) [some "a", some "b"]).2.2
      { state := LoadState.idle, req := some 5, nextHandle := 9 } 5 "b" rfl⟩

/-- char_toNat_valid: a Lean character is a unicode scalar value. -/
theorem char_toNat_valid (c : Char) :
    c.toNat < 55296 ∨ (57343 < c.toNat ∧ c.toNat < 1114112) := by
  have h := c.valid
  simp only [UInt32.isValidChar, Nat.isValidChar, Char.toNat] at h ⊢
  exact h

/-- utf8EncodeChar_lt: every UTF-8 byte fits in one byte. -/
theorem utf8EncodeChar_lt (c : Char) : ∀ b ∈ utf8EncodeChar c, b < 256 := by
  have hv : c.toNat < 1114112 := by rcases char_toNat_valid c with h | h <;> omega
  intro b hb
  simp only [utf8EncodeChar] at hb
  split_ifs at hb with h1 h2 h3 <;> simp only [List.mem_cons, List.mem_singleton,
    List.not_mem_nil, or_false] at hb
  · omega
  · rcases hb with rfl | rfl <;> omega
  · rcases hb with rfl | rfl | rfl <;> omega
  · rcases hb with rfl | rfl | rfl | rfl <;> omega

/-- percentDecodeBytes_escape: the shape of the decoder on an escape
sequence. -/
theorem percentDecodeBytes_escape (h1 h2 : Char) (rest : List Char) :
    percentDecodeBytes ('%' :: h1 :: h2 :: rest) =
      match hexDigitToNat? h1, hexDigitToNat? h2 with
      | some d1, some d2 => (percentDecodeBytes rest).map ((16 * d1 + d2) :: ·)
      | _, _ => none := rfl

/-- percentDecodeBytes_cons_ne: the decoder passes a non-escape
character through as its own code point. -/
theorem percentDecodeBytes_cons_ne (c : Char) (rest : List Char) (hc : c ≠ '%') :
    percentDecodeBytes (c :: rest) = (percentDecodeBytes rest).map (c.toNat :: ·) := by
  rw [percentDecodeBytes.eq_def]
  simp only [hc, if_false, ite_false]

/-- hexDigit_roundtrip: reading back a produced hex digit recovers the
value. -/
theorem hexDigit_roundtrip (d : ℕ) (hd : d < 16) :
    hexDigitToNat? (natToHexDigitChar d) = some d := by
  interval_cases d <;> decide

/-- percentDecode_byte: decoding a single percent escape yields its
byte. -/
theorem percentDecode_byte (b : ℕ) (hb : b < 256) (rest : List Char) :
    percentDecodeBytes (percentEncodeByte b ++ rest) =
      (percentDecodeBytes rest).map (b :: ·) := by
  have h1 : b / 16 < 16 := by omega
  have h2 : b % 16 < 16 := by omega
  have hb16 : 16 * (b / 16) + b % 16 = b := by omega
  show percentDecodeBytes
      ('%' :: natToHexDigitChar (b / 16) :: natToHexDigitChar (b % 16) :: rest) = _
  rw [percentDecodeBytes_escape, hexDigit_roundtrip _ h1, hexDigit_roundtrip _ h2]
  show (percentDecodeBytes rest).map ((16 * (b / 16) + b % 16) :: ·) = _
  rw [hb16]

/-- percentDecode_byteList: decoding the percent encoding of a byte
sequence prepends that sequence. -/
theorem percentDecode_byteList (bs : List ℕ) (hbs : ∀ b ∈ bs, b < 256) (rest : List Char) :
    percentDecodeBytes (bs.flatMap percentEncodeByte ++ rest) =
      (percentDecodeBytes rest).map (bs ++ ·) := by
  induction bs with
  | nil =>
      simp only [List.flatMap_nil, List.nil_append, List.nil_append]
      cases percentDecodeBytes rest <;> simp
  | cons b bt ih =>
      simp only [List.flatMap_cons, List.append_assoc]
      rw [percentDecode_byte b (hbs b (List.mem_cons_self _ _)) _,
        ih (fun x hx => hbs x (List.mem_cons_of_mem _ hx))]
      cases percentDecodeBytes rest <;> simp

/-- encodeChar_unreserved: an unreserved character is plain ASCII and
is not the escape character. -/
theorem encodeChar_unreserved (c : Char) (hc : isUnreservedUriChar c = true) :
    utf8EncodeChar c = [c.toNat] ∧ c ≠ '%' := by
  have hlt : c.toNat < 128 := by
    simp only [isUnreservedUriChar, Bool.or_eq_true, Bool.and_eq_true,
      decide_eq_true_eq, beq_iff_eq] at hc
    omega
  constructor
  · unfold utf8EncodeChar
    rw [if_pos hlt]
  · intro h
    subst h
    exact absurd hc (by decide)

/-- percentDecode_encodeChar: decoding the encoding of one character
prepends its UTF-8 bytes. -/
theorem percentDecode_encodeChar (c : Char) (rest : List Char) :
    percentDecodeBytes (encodeChar c ++ rest) =
      (percentDecodeBytes rest).map (utf8EncodeChar c ++ ·) := by
  by_cases hc : isUnreservedUriChar c = true
  · obtain ⟨henc, hne⟩ := encodeChar_unreserved c hc
    rw [encodeChar, if_pos hc, henc]
    show percentDecodeBytes (c :: rest) = _
    rw [percentDecodeBytes_cons_ne c rest hne]
    cases percentDecodeBytes rest <;> simp
  · rw [encodeChar, if_neg hc]
    exact percentDecode_byteList (utf8EncodeChar c) (utf8EncodeChar_lt c) rest

/-- percentDecode_encode_list: percent-decoding the full encoding of a
character list yields its UTF-8 byte sequence. -/
theorem percentDecode_encode_list (l : List Char) :
    percentDecodeBytes (l.flatMap encodeChar) = some (l.flatMap utf8EncodeChar) := by
  induction l with
  | nil => rfl
  | cons c ct ih =>
      simp only [List.flatMap_cons]
      rw [percentDecode_encodeChar c, ih]
      rfl

/-- utf8Decode_encodeChar: UTF-8 decoding undoes the per-character
encoding. -/
theorem utf8Decode_encodeChar (c : Char) (rest : List ℕ) :
    utf8DecodeBytes (utf8EncodeChar c ++ rest) = (utf8DecodeBytes rest).map (c :: ·) := by
  have hvalid := char_toNat_valid c
  by_cases h1 : c.toNat < 128
  · rw [utf8EncodeChar, if_pos h1]
    show utf8DecodeBytes (c.toNat :: rest) = _
    rw [utf8DecodeBytes.eq_def]
    simp only [h1, if_true, ite_true, Char.ofNat_toNat]
  · by_cases h2 : c.toNat < 2048
    · rw [utf8EncodeChar, if_neg h1, if_pos h2]
      have ha : ¬(192 + c.toNat / 64 < 128) := by omega
      have hb : ¬(192 + c.toNat / 64 < 192) := by omega
      have hcc : 192 + c.toNat / 64 < 224 := by omega
      have hd : 128 ≤ 128 + c.toNat % 64 ∧ 128 + c.toNat % 64 < 192 := by omega
      have hval : (192 + c.toNat / 64 - 192) * 64 + (128 + c.toNat % 64 - 128) = c.toNat := by
        omega
      show utf8DecodeBytes ((192 + c.toNat / 64) :: (128 + c.toNat % 64) :: rest) = _
      rw [utf8DecodeBytes.eq_def]
      simp only [ha, hb, hcc, if_false, ite_false, if_true, ite_true]
      rw [utf8DecodeCont2.eq_def]
      simp only [hd, and_self, if_true, ite_true]
      rw [hval, Char.ofNat_toNat]
    · by_cases h3 : c.toNat < 65536
      · rw [utf8EncodeChar, if_neg h1, if_neg h2, if_pos h3]
        have ha : ¬(224 + c.toNat / 4096 < 128) := by omega
        have hb : ¬(224 + c.toNat / 4096 < 192) := by omega
        have hcc : ¬(224 + c.toNat / 4096 < 224) := by omega
        have hdd : 224 + c.toNat / 4096 < 240 := by omega
        have he1 : 128 ≤ 128 + (c.toNat / 64) % 64 ∧ 128 + (c.toNat / 64) % 64 < 192 := by
          omega
        have he2 : 128 ≤ 128 + c.toNat % 64 ∧ 128 + c.toNat % 64 < 192 := by omega
        have hval : ((224 + c.toNat / 4096 - 224) * 64 +
            (128 + (c.toNat / 64) % 64 - 128) + 192 - 192) * 64 +
            (128 + c.toNat % 64 - 128) = c.toNat := by omega
        show utf8DecodeBytes ((224 + c.toNat / 4096) ::
            (128 + (c.toNat / 64) % 64) :: (128 + c.toNat % 64) :: rest) = _
        rw [utf8DecodeBytes.eq_def]
        simp only [ha, hb, hcc, hdd, if_false, ite_false, if_true, ite_true]
        rw [utf8DecodeCont3.eq_def]
        simp only [he1, and_self, if_true, ite_true]
        rw [utf8DecodeCont2.eq_def]
        simp only [he2, and_self, if_true, ite_true]
        rw [hval, Char.ofNat_toNat]
      · rw [utf8EncodeChar, if_neg h1, if_neg h2, if_neg h3]
        have hv : c.toNat < 1114112 := by omega
        have ha : ¬(240 + c.toNat / 262144 < 128) := by omega
        have hb : ¬(240 + c.toNat / 262144 < 192) := by omega
        have hcc : ¬(240 + c.toNat / 262144 < 224) := by omega
        have hdd : ¬(240 + c.toNat / 262144 < 240) := by omega
        have he : 240 + c.toNat / 262144 < 248 := by omega
        have hf1 : 128 ≤ 128 + (c.toNat / 4096) % 64 ∧ 128 + (c.toNat / 4096) % 64 < 192 := by
          omega
        have hf2 : 128 ≤ 128 + (c.toNat / 64) % 64 ∧ 128 + (c.toNat / 64) % 64 < 192 := by
          omega
        have hf3 : 128 ≤ 128 + c.toNat % 64 ∧ 128 + c.toNat % 64 < 192 := by omega
        have hval : (((240 + c.toNat / 262144 - 240) * 64 +
            (128 + (c.toNat / 4096) % 64 - 128) + 224 - 224) * 64 +
            (128 + (c.toNat / 64) % 64 - 128) + 192 - 192) * 64 +
            (128 + c.toNat % 64 - 128) = c.toNat := by omega
        show utf8DecodeBytes ((240 + c.toNat / 262144) :: (128 + (c.toNat / 4096) % 64) ::
            (128 + (c.toNat / 64) % 64) :: (128 + c.toNat % 64) :: rest) = _
        rw [utf8DecodeBytes.eq_def]
        simp only [ha, hb, hcc, hdd, he, if_false, ite_false, if_true, ite_true]
        rw [utf8DecodeCont4.eq_def]
        simp only [hf1, and_self, if_true, ite_true]
        rw [utf8DecodeCont3.eq_def]
        simp only [hf2, and_self, if_true, ite_true]
        rw [utf8DecodeCont2.eq_def]
        simp only [hf3, and_self, if_true, ite_true]
        rw [hval, Char.ofNat_toNat]

/-- utf8Decode_encode_list: UTF-8 decoding undoes the encoding of a
whole character list. -/
theorem utf8Decode_encode_list (l : List Char) :
    utf8DecodeBytes (l.flatMap utf8EncodeChar) = some l := by
  induction l with
  | nil => rfl
  | cons c ct ih =>
      simp only [List.flatMap_cons]
      rw [utf8Decode_encodeChar, ih]
      rfl

/-- decode_encode_roundtrip: `decodeURIComponent` is a left inverse of
`encodeURIComponent`. -/
theorem decode_encode_roundtrip (s : String) :
    decodeURIComponent (encodeURIComponent s) = some s := by
  show (percentDecodeBytes (s.data.flatMap encodeChar)).bind _ = some s
  rw [percentDecode_encode_list]
  show (utf8DecodeBytes (s.data.flatMap utf8EncodeChar)).map _ = some s
  rw [utf8Decode_encode_list]
  rfl

/-- matchHead_append: matching a literal head against a string that
starts with it succeeds and returns the remainder. -/
theorem matchHead_append (p : List Char) : ∀ l : List Char, matchHead p (p ++ l) = some l := by
  induction p with
  | nil => intro l; rfl
  | cons a ps ih =>
      intro l
      show matchHead (a :: ps) (a :: (ps ++ l)) = some l
      rw [matchHead, if_pos rfl]
      exact ih l

/-- C7 counterexample: a payload containing a newline is truncated at
it, because the regular-expression atom `.` does not cross line
terminators — resolution keeps only the percent-encoded first line, so
the round-trip fails for this URI even though it matches the pattern. -/
theorem c7_counterexample :
    resolveAssetUri emptyRegistry 1
        (some (.uriString "data:image/svg+xml;utf8,<a>\n</a>")) =
      .ok (some "data:image/svg+xml;utf8,%3Ca%3E") ∧
    resolveAssetUri emptyRegistry 1
        (some (.uriString "data:image/svg+xml;utf8,<a>\n</a>")) ≠
      .ok (some ("data:image/svg+xml;utf8," ++ encodeURIComponent "<a>\n</a>")) := by
  constructor <;> decide

/-- C7 (amended): for every SVG data URI whose payload contains no
ECMAScript line terminator, resolution returns the
`data:image/svg+xml;utf8,` head verbatim followed by the
percent-encoded payload, and percent-decoding that encoded payload
yields the original SVG markup. -/
theorem c7_svg_roundtrip (getAsset : Registry) (dpr : ℚ) (payload : String)
    (hnl : ∀ c ∈ payload.data, isJsLineTerminator c = false) :
    resolveAssetUri getAsset dpr (some (.uriString (svgHead ++ payload))) =
      .ok (some (svgHead ++ encodeURIComponent payload)) ∧
    decodeURIComponent (encodeURIComponent payload) = some payload := by
  have hm : svgMatchPayload (svgHead ++ payload) = some payload := by
    rw [svgMatchPayload, String.data_append, matchHead_append]
    have htw : payload.data.takeWhile (fun c => !isJsLineTerminator c) = payload.data :=
      List.takeWhile_eq_self_iff.mpr (by intro x hx; simp [hnl x hx])
    show some (String.mk (payload.data.takeWhile (fun c => !isJsLineTerminator c))) = _
    rw [htw]
  constructor
  · show Except.ok (resolveAssetUri.finishUri (some (svgHead ++ payload))) = _
    rw [finishUri_eq_svgEncode]
    rw [svgEncodeIfMatch, hm]
  · exact decode_encode_roundtrip payload

/-- Witness for C7 (amended) at a concrete single-line SVG payload
containing characters that need escaping. -/
theorem c7_svg_roundtrip_witness :
    (∀ c ∈ ("<svg xmlns=\"#\"></svg>" : String).data, isJsLineTerminator c = false) ∧
    (resolveAssetUri emptyRegistry 1
        (some (.uriString (svgHead ++ "<svg xmlns=\"#\"></svg>"))) =
      .ok (some (svgHead ++ encodeURIComponent "<svg xmlns=\"#\"></svg>")) ∧
    decodeURIComponent (encodeURIComponent "<svg xmlns=\"#\"></svg>") =
      some "<svg xmlns=\"#\"></svg>") :=
  ⟨by decide, c7_svg_roundtrip emptyRegistry 1 "<svg xmlns=\"#\"></svg>" (by decide)⟩

end ReactEmage
